import Mathlib

/-!
Shallow embedding of the transcript-creator-processor repository
(src/transcript_processor_local/{transcribe.py, correct.py, main.py}).

External collaborators (the Deepgram and OpenAI HTTP services, the JSON
parser of the standard library, wall-clock time and the filesystem) are
modelled as oracles/parameters; everything else is translated directly
from the Python source. Sleeps are recorded as a list of the requested
durations in seconds; file writes are recorded as a list of artifacts
(path, producing file's base name, kind, content).
-/

/-- Minimal JSON value model, used for the completion text of the
correction service (`json.loads` outcomes in correct.py). -/
inductive Json where
  | str (s : String)
  | arr (elems : List Json)
  | obj (fields : List (String × Json))
deriving Repr

/-- A Python value that is either `None` or a string; used for the
`language` entry of the Deepgram options dict, which the GUI sets to
`None` when the language selector shows "auto" (main.py line 590). -/
inductive PyOptStr where
  | none
  | str (s : String)
deriving DecidableEq, Repr

/-- Python `str(x)` for such a value: `str(None) = "None"`. -/
def pyOptStrShow : PyOptStr → String
  | PyOptStr.none => "None"
  | PyOptStr.str s => s

/-- Python `str(b).lower()` for a bool. -/
def pyBool (b : Bool) : String := if b then "true" else "false"

/-- Merged Deepgram option dict (transcribe.py lines 42-59): the default
dict updated with the caller's options. Fields mirror the keys of
`default_options`. -/
structure DGOptions where
  model : String
  punctuate : Bool
  diarize : Bool
  smart_format : Bool
  language : PyOptStr
  detect_language : Bool
  summarize : Bool
  detect_topics : Bool
  utterances : Bool
  profanity_filter : Bool
  redact : Option String
  alternatives : Nat
deriving DecidableEq, Repr

/-- `default_options` of transcribe.py lines 42-55. -/
def dgDefaultOptions : DGOptions :=
  { model := "nova-2"
    punctuate := true
    diarize := false
    smart_format := true
    language := PyOptStr.str "auto"
    detect_language := true
    summarize := false
    detect_topics := false
    utterances := false
    profanity_filter := false
    redact := Option.none
    alternatives := 1 }

/-- A caller-supplied (possibly incomplete) options dict: absent keys are
`Option.none` at the Lean level. -/
structure DGPartialOptions where
  model : Option String := Option.none
  punctuate : Option Bool := Option.none
  diarize : Option Bool := Option.none
  smart_format : Option Bool := Option.none
  language : Option PyOptStr := Option.none
  detect_language : Option Bool := Option.none
  summarize : Option Bool := Option.none
  detect_topics : Option Bool := Option.none
  utterances : Option Bool := Option.none
  profanity_filter : Option Bool := Option.none
  redact : Option (Option String) := Option.none
  alternatives : Option Nat := Option.none
deriving Repr

/-- `default_options.update(options)` (transcribe.py lines 57-59). -/
def mergeDGOptions (base : DGOptions) (o : DGPartialOptions) : DGOptions :=
  { model := o.model.getD base.model
    punctuate := o.punctuate.getD base.punctuate
    diarize := o.diarize.getD base.diarize
    smart_format := o.smart_format.getD base.smart_format
    language := o.language.getD base.language
    detect_language := o.detect_language.getD base.detect_language
    summarize := o.summarize.getD base.summarize
    detect_topics := o.detect_topics.getD base.detect_topics
    utterances := o.utterances.getD base.utterances
    profanity_filter := o.profanity_filter.getD base.profanity_filter
    redact := o.redact.getD base.redact
    alternatives := o.alternatives.getD base.alternatives }

/-- A parameter entry guarded by its condition: present exactly when the
condition holds. -/
def condParam (cond : Bool) (kv : String × String) : List (String × String) :=
  if cond then [kv] else []

/-- The query-parameter list built by transcribe.py lines 64-92, in
dict-insertion order. The first five parameters are set unconditionally;
the rest are added under the conditions written in the source (language
whenever the merged value differs from the string "auto", including the
`None` case, which serializes as "None"; boolean extras only when truthy;
redact only when a non-empty string; alternatives only when > 1). -/
def deepgram_request_params (o : DGOptions) : List (String × String) :=
  [("model", o.model),
   ("punctuate", pyBool o.punctuate),
   ("diarize", pyBool o.diarize),
   ("smart_format", pyBool o.smart_format),
   ("utterances", pyBool o.utterances)]
  ++ condParam (decide (o.language ≠ PyOptStr.str "auto")) ("language", pyOptStrShow o.language)
  ++ condParam o.detect_language ("detect_language", "true")
  ++ condParam o.summarize ("summarize", "true")
  ++ condParam o.detect_topics ("detect_topics", "true")
  ++ condParam o.profanity_filter ("profanity_filter", "true")
  ++ (match o.redact with
      | Option.some s => condParam (decide (s ≠ "")) ("redact", s)
      | Option.none => [])
  ++ condParam (decide (1 < o.alternatives)) ("alternatives", toString o.alternatives)

/-- Whether a key appears in a parameter list. -/
def hasParam (ps : List (String × String)) (k : String) : Bool :=
  ps.any (fun p => p.1 == k)

/-- The state of the GUI variables read by `get_deepgram_options`
(main.py lines 583-603). -/
structure GuiState where
  model_var : String
  punctuate_var : Bool
  diarize_var : Bool
  smart_format_var : Bool
  language_var : String
  detect_language_var : Bool
  summarize_var : Bool
  detect_topics_var : Bool
  utterances_var : Bool
  profanity_filter_var : Bool
  redact_var : String
  alternatives_var : Nat
deriving Repr

/-- `get_deepgram_options` (main.py lines 583-603): every key is present
except `redact`, which is added only when the redact entry is non-blank;
`language` maps the sentinel "auto" to Python `None`. -/
def get_deepgram_options (g : GuiState) : DGPartialOptions :=
  { model := Option.some g.model_var
    punctuate := Option.some g.punctuate_var
    diarize := Option.some g.diarize_var
    smart_format := Option.some g.smart_format_var
    language := Option.some (if g.language_var ≠ "auto" then PyOptStr.str g.language_var else PyOptStr.none)
    detect_language := Option.some g.detect_language_var
    summarize := Option.some g.summarize_var
    detect_topics := Option.some g.detect_topics_var
    utterances := Option.some g.utterances_var
    profanity_filter := Option.some g.profanity_filter_var
    alternatives := Option.some g.alternatives_var
    redact := if g.redact_var.trim ≠ "" then Option.some (Option.some g.redact_var.trim) else Option.none }

/-- The structured transcription response, abstracted to the one field the
orchestration layer inspects: the primary transcript extracted by the
`.get` chain `results.channels[0].alternatives[0].transcript` with ""
as the default for a missing field. -/
structure DeepgramResult where
  transcript : String
deriving DecidableEq, Repr

/-- What one HTTP attempt of transcribe.py observes (the service and the
network are an oracle). -/
inductive DGAttempt where
  | ok (r : DeepgramResult)
  | rateLimited
  | httpError (status : Nat)
  | netError
deriving DecidableEq, Repr

/-- How a transcription call ends (transcribe.py lines 135-164): a result,
or one of the raised errors. -/
inductive DGOutcome where
  | success (r : DeepgramResult)
  | rateLimitExceeded
  | apiError (status : Nat)
  | networkError
deriving DecidableEq, Repr

/-- The retry loop of transcribe.py lines 114-164: `for attempt in
range(max_retries)` with `max_retries = 3` and `retry_delay = 2`,
doubling after each retried failure. Arguments: the per-attempt oracle,
max_retries, current attempt index, current delay, remaining fuel
(= max_retries - attempt, so the fuel-0 branch is unreachable), and the
sleeps recorded so far (reversed). Returns (number of attempts made,
sleeps in order, outcome). -/
def dgLoop (resp : Nat → DGAttempt) (maxRetries : Nat) :
    Nat → Nat → Nat → List Nat → Nat × List Nat × DGOutcome
  | attempt, _, 0, sleeps => (attempt, sleeps.reverse, DGOutcome.networkError)
  | attempt, delay, fuel + 1, sleeps =>
    match resp attempt with
    | DGAttempt.ok r => (attempt + 1, sleeps.reverse, DGOutcome.success r)
    | DGAttempt.rateLimited =>
      if attempt < maxRetries - 1 then
        dgLoop resp maxRetries (attempt + 1) (delay * 2) fuel (delay :: sleeps)
      else
        (attempt + 1, sleeps.reverse, DGOutcome.rateLimitExceeded)
    | DGAttempt.httpError s => (attempt + 1, sleeps.reverse, DGOutcome.apiError s)
    | DGAttempt.netError =>
      if attempt < maxRetries - 1 then
        dgLoop resp maxRetries (attempt + 1) (delay * 2) fuel (delay :: sleeps)
      else
        (attempt + 1, sleeps.reverse, DGOutcome.networkError)

/-- `transcribe_audio_with_deepgram`'s request/retry behavior
(transcribe.py lines 114-164), with the service modelled as the
per-attempt oracle `resp`. -/
def transcribe_audio_with_deepgram (resp : Nat → DGAttempt) : Nat × List Nat × DGOutcome :=
  dgLoop resp 3 0 2 3 []

/-- The result dict built by correct.py lines 117-134. `timestamp`
(wall-clock time) is not modelled. `corrected_transcript` is a `Json`
value because the structured-output path stores whatever value the parsed
object carries under that key; in the plain path it is always a string.
`error` is the parse-error marker set on JSON-decode failure. -/
structure CorrectionResult where
  original_transcript : String
  model_used : String
  corrected_transcript : Json
  topics : Option Json
  error : Option String
deriving Repr

/-- Merged OpenAI option dict (correct.py lines 52-64), restricted to the
fields that drive control flow or appear in the result (`temperature` is
forwarded verbatim to the service and is not modelled). -/
structure OAOptions where
  model : String
  max_retries : Nat
  format_output : Bool
deriving Repr

/-- The control-flow-relevant defaults of `default_options`
(correct.py lines 52-60). -/
def oaDefaultOptions : OAOptions :=
  { model := "gpt-4o", max_retries := 2, format_output := false }

/-- What one chat-completion attempt observes; the service, the openai
client and `json.loads` are the oracle. On `ok`, `content` is the
completion text and `parsed` stands for the outcome of
`json.loads(content)` (`Option.none` = raises `json.JSONDecodeError`). -/
inductive OAAttempt where
  | ok (content : String) (parsed : Option Json)
  | apiError
  | rateLimitError
  | other
deriving Repr

/-- How a `TranscriptionCorrectionError` raise came about. -/
inductive CorrFail where
  | apiExhausted
  | rateExhausted
  | immediate
deriving DecidableEq, Repr

/-- Result construction of correct.py lines 117-134 for one successful
completion. With `format_output`: a JSON-decode failure falls back to
the raw text plus the parse-error marker; a decoded object is read with
`.get("corrected_transcript", "")` and `topics` is copied when present;
a decoded non-object makes `parsed_content.get` raise `AttributeError`,
which the catch-all handler (line 157) wraps and raises immediately. -/
def buildCorrectionResult (formatOutput : Bool) (model transcript content : String)
    (parsed : Option Json) : Except CorrFail CorrectionResult :=
  if formatOutput then
    match parsed with
    | Option.none =>
      Except.ok { original_transcript := transcript, model_used := model,
                  corrected_transcript := Json.str content, topics := Option.none,
                  error := Option.some "Failed to parse JSON response" }
    | Option.some (Json.obj fields) =>
      Except.ok { original_transcript := transcript, model_used := model,
                  corrected_transcript := (fields.lookup "corrected_transcript").getD (Json.str ""),
                  topics := fields.lookup "topics", error := Option.none }
    | Option.some _ => Except.error CorrFail.immediate
  else
    Except.ok { original_transcript := transcript, model_used := model,
                corrected_transcript := Json.str content, topics := Option.none,
                error := Option.none }

/-- The retry loop of correct.py lines 94-160: `while retries <=
max_retries`, attempt number = current `retries` value; on
`openai.APIError` sleep `2 * retries` after incrementing, on
`openai.RateLimitError` sleep `5 * retries`, raise once `retries`
exceeds `max_retries`; any other exception is wrapped and raised at
once. The two exception kinds are modelled as the disjoint tags the
handlers name. Fuel is `max_retries + 1 - retries`, so the fuel-0 branch
is unreachable. Returns (number of attempts made, sleeps in order,
result or raised error). -/
def correctLoop (resp : Nat → OAAttempt) (maxRetries : Nat) (formatOutput : Bool)
    (model transcript : String) :
    Nat → Nat → List Nat → Nat × List Nat × Except CorrFail CorrectionResult
  | retries, 0, sleeps => (retries, sleeps.reverse, Except.error CorrFail.immediate)
  | retries, fuel + 1, sleeps =>
    match resp retries with
    | OAAttempt.ok content parsed =>
      (retries + 1, sleeps.reverse, buildCorrectionResult formatOutput model transcript content parsed)
    | OAAttempt.apiError =>
      let r := retries + 1
      if maxRetries < r then
        (r, sleeps.reverse, Except.error CorrFail.apiExhausted)
      else
        correctLoop resp maxRetries formatOutput model transcript r fuel (2 * r :: sleeps)
    | OAAttempt.rateLimitError =>
      let r := retries + 1
      if maxRetries < r then
        (r, sleeps.reverse, Except.error CorrFail.rateExhausted)
      else
        correctLoop resp maxRetries formatOutput model transcript r fuel (5 * r :: sleeps)
    | OAAttempt.other => (retries + 1, sleeps.reverse, Except.error CorrFail.immediate)

/-- `correct_transcript_with_openai` (correct.py lines 22-160) with the
service as the per-attempt oracle `resp`. An empty transcript raises
`ValueError` before the loop (line 41-42), modelled as the distinct
`valueError` outcome of the wrapper below. -/
inductive CorrectCall where
  | valueError
  | ran (attempts : Nat) (sleeps : List Nat) (outcome : Except CorrFail CorrectionResult)
deriving Repr

def correct_transcript_with_openai (resp : Nat → OAAttempt) (o : OAOptions)
    (transcript : String) : CorrectCall :=
  if transcript = "" then CorrectCall.valueError
  else
    let r := correctLoop resp o.max_retries o.format_output o.model transcript 0 (o.max_retries + 1) []
    CorrectCall.ran r.1 r.2.1 r.2.2

/-- Kinds of on-disk artifact contents. -/
inductive ArtifactContent where
  | rawJson (r : DeepgramResult)
  | rawText (s : String)
  | corrJson (c : CorrectionResult)
  | corrText (j : Json)
  | summaryText (processed total errors : Nat) (trModel : String) (coModel : Option String)
deriving Repr

/-- Artifact kinds, for counting. -/
inductive ArtifactKind where
  | rawJson
  | rawText
  | corrJson
  | corrText
  | summary
deriving DecidableEq, Repr

/-- One recorded file write: the path, the base name of the input file
it belongs to ("" for the batch summary), its kind and its content. -/
structure Artifact where
  path : String
  base : String
  kind : ArtifactKind
  content : ArtifactContent
deriving Repr

/-- `save_raw_transcript` (main.py lines 775-802): writes
`transcripts/{base}_raw_transcript.json` with the full structured result
and `transcripts/{base}_raw_transcript.txt` with the extracted
transcript only. -/
def save_raw_transcript (base : String) (r : DeepgramResult) : List Artifact :=
  [{ path := "transcripts/" ++ base ++ "_raw_transcript.json", base := base,
     kind := ArtifactKind.rawJson, content := ArtifactContent.rawJson r },
   { path := "transcripts/" ++ base ++ "_raw_transcript.txt", base := base,
     kind := ArtifactKind.rawText, content := ArtifactContent.rawText r.transcript }]

/-- `save_corrected_transcript` (main.py lines 804-828): writes
`corrected_transcripts/{base}_corrected_transcript.json` with the full
result and `corrected_transcripts/{base}_corrected_transcript.txt` with
the corrected text only. -/
def save_corrected_transcript (base : String) (c : CorrectionResult) : List Artifact :=
  [{ path := "corrected_transcripts/" ++ base ++ "_corrected_transcript.json", base := base,
     kind := ArtifactKind.corrJson, content := ArtifactContent.corrJson c },
   { path := "corrected_transcripts/" ++ base ++ "_corrected_transcript.txt", base := base,
     kind := ArtifactKind.corrText, content := ArtifactContent.corrText c.corrected_transcript }]

/-- The environment a batch file meets: its base name
(`splitext(basename(path))[0]`), what the transcription call does, and
what the correction call would do if attempted. `Except.error ()` stands
for the call raising any exception. -/
structure FileEnv where
  base : String
  tr : Except Unit DeepgramResult
  co : Except Unit CorrectionResult
deriving Repr

/-- How the loop body of `_batch_processing_thread` (main.py lines
1097-1156) ends for one file. `skipped` = the file was never started
because the active flag was already cleared. -/
inductive FileOutcome where
  | skipped
  | transcribeErrored
  | noTranscript
  | processedRawOnly (r : DeepgramResult)
  | correctionErrored (r : DeepgramResult)
  | processedCorrected (r : DeepgramResult) (c : CorrectionResult)
deriving Repr

/-- The per-file `try` body (main.py lines 1097-1156): transcribe; an
empty extracted transcript counts as an error and skips to the next file
(lines 1111-1114); otherwise the raw artifacts are written, then, when
`do_correction`, the correction call runs (its exception lands in the
same per-file handler, after the raw artifacts are already on disk). -/
def processFile (doCorrection : Bool) (f : FileEnv) : FileOutcome :=
  match f.tr with
  | Except.error _ => FileOutcome.transcribeErrored
  | Except.ok r =>
    if r.transcript = "" then FileOutcome.noTranscript
    else if doCorrection then
      match f.co with
      | Except.error _ => FileOutcome.correctionErrored r
      | Except.ok c => FileOutcome.processedCorrected r c
    else FileOutcome.processedRawOnly r

/-- Did this outcome increment `processed` (main.py line 1151)? -/
def outcomeProcessed : FileOutcome → Bool
  | FileOutcome.processedRawOnly _ => true
  | FileOutcome.processedCorrected _ _ => true
  | _ => false

/-- Did this outcome increment `errors` (main.py lines 1113, 1154)? -/
def outcomeErrored : FileOutcome → Bool
  | FileOutcome.transcribeErrored => true
  | FileOutcome.noTranscript => true
  | FileOutcome.correctionErrored _ => true
  | _ => false

/-- The raw artifact pair the batch loop writes (main.py lines
1116-1125): `raw_transcripts/{base}_raw.json` with the full result and
`raw_transcripts/{base}.txt` with the transcript. -/
def batchRawArtifacts (base : String) (r : DeepgramResult) : List Artifact :=
  [{ path := "raw_transcripts/" ++ base ++ "_raw.json", base := base,
     kind := ArtifactKind.rawJson, content := ArtifactContent.rawJson r },
   { path := "raw_transcripts/" ++ base ++ ".txt", base := base,
     kind := ArtifactKind.rawText, content := ArtifactContent.rawText r.transcript }]

/-- The corrected artifact pair the batch loop writes (main.py lines
1140-1147): `corrected_transcripts/{base}_corrected.json` and
`corrected_transcripts/{base}.txt`. -/
def batchCorrArtifacts (base : String) (c : CorrectionResult) : List Artifact :=
  [{ path := "corrected_transcripts/" ++ base ++ "_corrected.json", base := base,
     kind := ArtifactKind.corrJson, content := ArtifactContent.corrJson c },
   { path := "corrected_transcripts/" ++ base ++ ".txt", base := base,
     kind := ArtifactKind.corrText, content := ArtifactContent.corrText c.corrected_transcript }]

/-- All artifacts one file's loop-body run leaves behind. The raw pair is
written before the correction call, so it survives a correction error. -/
def fileArtifacts (f : FileEnv) : FileOutcome → List Artifact
  | FileOutcome.skipped => []
  | FileOutcome.transcribeErrored => []
  | FileOutcome.noTranscript => []
  | FileOutcome.processedRawOnly r => batchRawArtifacts f.base r
  | FileOutcome.correctionErrored r => batchRawArtifacts f.base r
  | FileOutcome.processedCorrected r c => batchRawArtifacts f.base r ++ batchCorrArtifacts f.base c

/-- The cancellation oracle: `batch_processing_active` is cleared by
`stop_batch_processing` (main.py lines 1190-1196) and never re-set during
a run; `cancelAt = some k` means the k-th flag read (0-based, one before
each file plus the post-loop read at index `files.length`) is the first
to observe `False`. `none` = never cancelled. -/
def activeAt (cancelAt : Option Nat) (i : Nat) : Bool :=
  match cancelAt with
  | Option.none => true
  | Option.some k => decide (i < k)

/-- The `for` loop of `_batch_processing_thread` (main.py lines
1084-1156) plus the final flag read guarding the summary (line 1159):
before each file the flag is read; a cleared flag breaks out of the loop
(remaining files never start). Returns (per-file outcomes, artifacts
written so far, flag value at the post-loop read). -/
def batchLoop (doCorrection : Bool) (cancelAt : Option Nat) :
    Nat → List FileEnv → List FileOutcome × List Artifact × Bool
  | i, [] => ([], [], activeAt cancelAt i)
  | i, f :: rest =>
    if activeAt cancelAt i then
      let out := processFile doCorrection f
      let r := batchLoop doCorrection cancelAt (i + 1) rest
      (out :: r.1, fileArtifacts f out ++ r.2.1, r.2.2)
    else
      ((f :: rest).map (fun _ => FileOutcome.skipped), [], false)

/-- The final report of a batch run. -/
structure RunReport where
  outcomes : List FileOutcome
  processed : Nat
  errors : Nat
  summary : Option ArtifactContent
  artifacts : List Artifact
deriving Repr

/-- `_batch_processing_thread` (main.py lines 1076-1188): run the loop;
when the active flag is still set afterwards (line 1159) write
`batch_summary.txt` with processed/total, errors and the model names
(the correction model only when `do_correction`, lines 1174-1175). A
cancelled run skips the whole completion block, summary included.
`processed`/`errors` are the loop counters, one increment per qualifying
outcome. -/
def batch_processing_thread (doCorrection : Bool) (cancelAt : Option Nat)
    (trModel coModel : String) (files : List FileEnv) : RunReport :=
  let r := batchLoop doCorrection cancelAt 0 files
  let processed := r.1.countP outcomeProcessed
  let errors := r.1.countP outcomeErrored
  let summary :=
    if r.2.2 then
      Option.some (ArtifactContent.summaryText processed files.length errors trModel
        (if doCorrection then Option.some coModel else Option.none))
    else Option.none
  { outcomes := r.1
    processed := processed
    errors := errors
    summary := summary
    artifacts := r.2.1 ++
      (match summary with
       | Option.some s =>
         [{ path := "batch_summary.txt", base := "", kind := ArtifactKind.summary, content := s }]
       | Option.none => []) }

/-- C2: a transcription call whose every HTTP attempt hits status 429
makes exactly 3 attempts with 2s then 4s of backoff and then raises the
rate-limit error; the same bound and schedule apply to network-level
failures, which then surface as the network error. -/
theorem transcribe_retry_schedule (respRate respNet : Nat → DGAttempt)
    (hr : ∀ i, i < 3 → respRate i = DGAttempt.rateLimited)
    (hn : ∀ i, i < 3 → respNet i = DGAttempt.netError) :
    transcribe_audio_with_deepgram respRate = (3, [2, 4], DGOutcome.rateLimitExceeded) ∧
    transcribe_audio_with_deepgram respNet = (3, [2, 4], DGOutcome.networkError) := by
  constructor <;>
    simp [transcribe_audio_with_deepgram, dgLoop,
      hr 0 (by norm_num), hr 1 (by norm_num), hr 2 (by norm_num),
      hn 0 (by norm_num), hn 1 (by norm_num), hn 2 (by norm_num)]

theorem transcribe_retry_schedule_witness :
    transcribe_audio_with_deepgram (fun _ => DGAttempt.rateLimited)
      = (3, [2, 4], DGOutcome.rateLimitExceeded) ∧
    transcribe_audio_with_deepgram (fun _ => DGAttempt.netError)
      = (3, [2, 4], DGOutcome.networkError) :=
  transcribe_retry_schedule _ _ (fun _ _ => rfl) (fun _ _ => rfl)

lemma correctLoop_const_api (resp : Nat → OAAttempt) (M : Nat) (fmt : Bool) (m t : String)
    (h : ∀ i, resp i = OAAttempt.apiError) :
    ∀ fuel retries sleeps, retries + fuel = M + 1 → retries ≤ M →
      correctLoop resp M fmt m t retries fuel sleeps
        = (M + 1, sleeps.reverse ++ (List.range' (retries + 1) (M - retries)).map (fun n => 2 * n),
           Except.error CorrFail.apiExhausted) := by
  intro fuel
  induction fuel with
  | zero => intro retries sleeps hsum hle; omega
  | succ f ih =>
    intro retries sleeps hsum hle
    rw [correctLoop, h retries]
    by_cases hend : M < retries + 1
    · have hM : retries = M := by omega
      subst hM
      simp [hend]
    · have hrange : M - retries = (M - (retries + 1)) + 1 := by omega
      simp only [hend, if_false]
      rw [ih (retries + 1) (2 * (retries + 1) :: sleeps) (by omega) (by omega)]
      simp [hrange, List.range'_succ, List.append_assoc]

lemma correctLoop_const_rate (resp : Nat → OAAttempt) (M : Nat) (fmt : Bool) (m t : String)
    (h : ∀ i, resp i = OAAttempt.rateLimitError) :
    ∀ fuel retries sleeps, retries + fuel = M + 1 → retries ≤ M →
      correctLoop resp M fmt m t retries fuel sleeps
        = (M + 1, sleeps.reverse ++ (List.range' (retries + 1) (M - retries)).map (fun n => 5 * n),
           Except.error CorrFail.rateExhausted) := by
  intro fuel
  induction fuel with
  | zero => intro retries sleeps hsum hle; omega
  | succ f ih =>
    intro retries sleeps hsum hle
    rw [correctLoop, h retries]
    by_cases hend : M < retries + 1
    · have hM : retries = M := by omega
      subst hM
      simp [hend]
    · have hrange : M - retries = (M - (retries + 1)) + 1 := by omega
      simp only [hend, if_false]
      rw [ih (retries + 1) (5 * (retries + 1) :: sleeps) (by omega) (by omega)]
      simp [hrange, List.range'_succ, List.append_assoc]

/-- C5: a correction call makes at most `max_retries` (default 2)
additional attempts after the first, only on rate-limit or API errors;
the sleep before retry n is 5n seconds for rate limits and 2n seconds
for generic API errors; exhausting the retries raises the terminal
correction error, and any other exception is wrapped and raised
immediately without retrying. -/
theorem correct_retry_policy (o : OAOptions) (t : String)
    (respApi respRate respOther : Nat → OAAttempt)
    (ht : t ≠ "")
    (hA : ∀ i, respApi i = OAAttempt.apiError)
    (hR : ∀ i, respRate i = OAAttempt.rateLimitError)
    (hO : respOther 0 = OAAttempt.other) :
    correct_transcript_with_openai respApi o t
      = CorrectCall.ran (o.max_retries + 1)
          ((List.range' 1 o.max_retries).map (fun n => 2 * n))
          (Except.error CorrFail.apiExhausted) ∧
    correct_transcript_with_openai respRate o t
      = CorrectCall.ran (o.max_retries + 1)
          ((List.range' 1 o.max_retries).map (fun n => 5 * n))
          (Except.error CorrFail.rateExhausted) ∧
    correct_transcript_with_openai respOther o t
      = CorrectCall.ran 1 [] (Except.error CorrFail.immediate) ∧
    oaDefaultOptions.max_retries = 2 := by
  refine ⟨?_, ?_, ?_, rfl⟩
  · rw [correct_transcript_with_openai, if_neg ht,
      correctLoop_const_api respApi o.max_retries o.format_output o.model t hA
        (o.max_retries + 1) 0 [] (by omega) (by omega)]
    simp
  · rw [correct_transcript_with_openai, if_neg ht,
      correctLoop_const_rate respRate o.max_retries o.format_output o.model t hR
        (o.max_retries + 1) 0 [] (by omega) (by omega)]
    simp
  · rw [correct_transcript_with_openai, if_neg ht, correctLoop, hO]
    rfl

theorem correct_retry_policy_witness :
    correct_transcript_with_openai (fun _ => OAAttempt.apiError) oaDefaultOptions "t"
      = CorrectCall.ran 3 [2, 4] (Except.error CorrFail.apiExhausted) ∧
    correct_transcript_with_openai (fun _ => OAAttempt.rateLimitError) oaDefaultOptions "t"
      = CorrectCall.ran 3 [5, 10] (Except.error CorrFail.rateExhausted) ∧
    correct_transcript_with_openai (fun _ => OAAttempt.other) oaDefaultOptions "t"
      = CorrectCall.ran 1 [] (Except.error CorrFail.immediate) ∧
    oaDefaultOptions.max_retries = 2 :=
  correct_retry_policy oaDefaultOptions "t" _ _ _ (by decide)
    (fun _ => rfl) (fun _ => rfl) rfl

/-- C6: with structured output requested, a completion whose text is not
valid JSON still yields a successful result whose corrected transcript
is the raw completion text, flagged with the parse-error marker. -/
theorem correct_parse_fallback (resp : Nat → OAAttempt) (o : OAOptions) (t content : String)
    (ht : t ≠ "") (hf : o.format_output = true)
    (h0 : resp 0 = OAAttempt.ok content Option.none) :
    correct_transcript_with_openai resp o t
      = CorrectCall.ran 1 []
          (Except.ok { original_transcript := t, model_used := o.model,
                       corrected_transcript := Json.str content, topics := Option.none,
                       error := Option.some "Failed to parse JSON response" }) := by
  rw [correct_transcript_with_openai, if_neg ht, correctLoop, h0]
  simp [buildCorrectionResult, hf]

theorem correct_parse_fallback_witness :
    correct_transcript_with_openai (fun _ => OAAttempt.ok "not json" Option.none)
        { model := "gpt-4o", max_retries := 2, format_output := true } "t"
      = CorrectCall.ran 1 []
          (Except.ok { original_transcript := "t", model_used := "gpt-4o",
                       corrected_transcript := Json.str "not json", topics := Option.none,
                       error := Option.some "Failed to parse JSON response" }) :=
  correct_parse_fallback _ _ "t" "not json" (by decide) rfl rfl

/-- C10 counterexample: the completion text "[]" is valid JSON and lacks
a `corrected_transcript` field, yet the call raises the wrapped
correction error (the `.get` on the non-dict value raises) instead of
returning a result with an empty corrected transcript. -/
theorem correct_nondict_raises :
    correct_transcript_with_openai (fun _ => OAAttempt.ok "[]" (Option.some (Json.arr [])))
        { model := "gpt-4o", max_retries := 2, format_output := true } "t"
      = CorrectCall.ran 1 [] (Except.error CorrFail.immediate) := rfl

/-- C10 as amended: with structured output requested, a completion that
parses as a JSON object lacking a `corrected_transcript` field returns a
result whose corrected transcript is the empty string with no
parse-error marker (a valid-JSON non-object completion instead raises,
see the counterexample). -/
theorem correct_missing_field_empty (resp : Nat → OAAttempt) (o : OAOptions)
    (t content : String) (fields : List (String × Json))
    (ht : t ≠ "") (hf : o.format_output = true)
    (h0 : resp 0 = OAAttempt.ok content (Option.some (Json.obj fields)))
    (hmiss : fields.lookup "corrected_transcript" = Option.none) :
    correct_transcript_with_openai resp o t
      = CorrectCall.ran 1 []
          (Except.ok { original_transcript := t, model_used := o.model,
                       corrected_transcript := Json.str "",
                       topics := fields.lookup "topics", error := Option.none }) := by
  rw [correct_transcript_with_openai, if_neg ht, correctLoop, h0]
  simp [buildCorrectionResult, hf, hmiss]

theorem correct_missing_field_empty_witness :
    correct_transcript_with_openai
        (fun _ => OAAttempt.ok "obj" (Option.some (Json.obj [("x", Json.str "y")])))
        { model := "gpt-4o", max_retries := 2, format_output := true } "t"
      = CorrectCall.ran 1 []
          (Except.ok { original_transcript := "t", model_used := "gpt-4o",
                       corrected_transcript := Json.str "",
                       topics := ([("x", Json.str "y")] : List (String × Json)).lookup "topics",
                       error := Option.none }) :=
  correct_missing_field_empty _ _ "t" "obj" [("x", Json.str "y")] (by decide) rfl rfl rfl

lemma any_condParam (cond : Bool) (kv : String × String) (p : String × String → Bool) :
    (condParam cond kv).any p = (cond && p kv) := by
  cases cond <;> simp [condParam]

/-- C7 counterexample: with the documented defaults, `punctuate` is at
its default value (on) and yet is sent in the query parameters — the
request does not contain only the non-default parameters. Moreover, the
GUI maps a language selector showing "auto" to Python `None`, which the
request builder then serializes as `language=None` instead of omitting
the language parameter. -/
theorem deepgram_params_counterexample :
    (("punctuate", "true") ∈ deepgram_request_params dgDefaultOptions ∧
      dgDefaultOptions.punctuate = true) ∧
    ("language", "None") ∈ deepgram_request_params (mergeDGOptions dgDefaultOptions
      (get_deepgram_options
        { model_var := "nova-2", punctuate_var := true, diarize_var := false,
          smart_format_var := true, language_var := "auto", detect_language_var := true,
          summarize_var := false, detect_topics_var := false, utterances_var := false,
          profanity_filter_var := false, redact_var := "", alternatives_var := 1 })) := by
  decide

/-- C7 as amended: the query parameters always include `model`,
`punctuate`, `diarize`, `smart_format` and `utterances`, even at their
default values; of the remaining optional parameters, `language` is
present exactly when its merged value differs from the string "auto"
(so a GUI-mapped `None` is sent as "None"), `detect_language` whenever
it is true (which is its documented default, requesting auto-detection),
`summarize`/`detect_topics`/`profanity_filter` only when enabled,
`redact` only when a non-empty term list is given, and `alternatives`
only when greater than 1. -/
theorem deepgram_params_policy (o : DGOptions) :
    ("model", o.model) ∈ deepgram_request_params o ∧
    ("punctuate", pyBool o.punctuate) ∈ deepgram_request_params o ∧
    ("diarize", pyBool o.diarize) ∈ deepgram_request_params o ∧
    ("smart_format", pyBool o.smart_format) ∈ deepgram_request_params o ∧
    ("utterances", pyBool o.utterances) ∈ deepgram_request_params o ∧
    hasParam (deepgram_request_params o) "language" = decide (o.language ≠ PyOptStr.str "auto") ∧
    hasParam (deepgram_request_params o) "detect_language" = o.detect_language ∧
    hasParam (deepgram_request_params o) "summarize" = o.summarize ∧
    hasParam (deepgram_request_params o) "detect_topics" = o.detect_topics ∧
    hasParam (deepgram_request_params o) "profanity_filter" = o.profanity_filter ∧
    hasParam (deepgram_request_params o) "redact"
      = (match o.redact with
         | Option.some s => decide (s ≠ "")
         | Option.none => false) ∧
    hasParam (deepgram_request_params o) "alternatives" = decide (1 < o.alternatives) := by
  refine ⟨by simp [deepgram_request_params], by simp [deepgram_request_params],
    by simp [deepgram_request_params], by simp [deepgram_request_params],
    by simp [deepgram_request_params], ?_, ?_, ?_, ?_, ?_, ?_, ?_⟩ <;>
    · rcases hred : o.redact with _ | s <;>
        simp [deepgram_request_params, hasParam, any_condParam, hred]

/-- C4 counterexample: in a batch run over one file whose transcription
succeeds, the persisted raw artifacts are `raw_transcripts/a_raw.json`
and `raw_transcripts/a.txt` — not the `{base}_raw_transcript.json` /
`{base}_raw_transcript.txt` names the claim requires of every write
path. -/
theorem batch_artifact_names_counterexample :
    ((batch_processing_thread false Option.none "nova-2" "gpt-4o"
        [{ base := "a", tr := Except.ok { transcript := "hi" }, co := Except.error () }]).artifacts.map
      Artifact.path)
      = ["raw_transcripts/a_raw.json", "raw_transcripts/a.txt", "batch_summary.txt"] ∧
    ("raw_transcripts/a_raw.json" ≠ "raw_transcripts/a_raw_transcript.json" ∧
     "raw_transcripts/a.txt" ≠ "raw_transcripts/a_raw_transcript.txt") := by
  exact ⟨rfl, by decide⟩

/-- C4 as amended: the single-file writer paths use exactly
`{base}_raw_transcript.json` / `.txt` (full structured result in the
`.json`, transcript text only in the `.txt`) and
`{base}_corrected_transcript.json` / `.txt` (full result / corrected
text only), but the batch path instead writes
`raw_transcripts/{base}_raw.json`, `raw_transcripts/{base}.txt`,
`corrected_transcripts/{base}_corrected.json` and
`corrected_transcripts/{base}.txt`, with the same json-full/txt-text
content split. -/
theorem writer_artifact_names (base : String) (r : DeepgramResult) (c : CorrectionResult) :
    save_raw_transcript base r
      = [{ path := "transcripts/" ++ base ++ "_raw_transcript.json", base := base,
           kind := ArtifactKind.rawJson, content := ArtifactContent.rawJson r },
         { path := "transcripts/" ++ base ++ "_raw_transcript.txt", base := base,
           kind := ArtifactKind.rawText, content := ArtifactContent.rawText r.transcript }] ∧
    save_corrected_transcript base c
      = [{ path := "corrected_transcripts/" ++ base ++ "_corrected_transcript.json", base := base,
           kind := ArtifactKind.corrJson, content := ArtifactContent.corrJson c },
         { path := "corrected_transcripts/" ++ base ++ "_corrected_transcript.txt", base := base,
           kind := ArtifactKind.corrText, content := ArtifactContent.corrText c.corrected_transcript }] ∧
    (batchRawArtifacts base r).map Artifact.path
      = ["raw_transcripts/" ++ base ++ "_raw.json", "raw_transcripts/" ++ base ++ ".txt"] ∧
    (batchCorrArtifacts base c).map Artifact.path
      = ["corrected_transcripts/" ++ base ++ "_corrected.json",
         "corrected_transcripts/" ++ base ++ ".txt"] :=
  ⟨rfl, rfl, rfl, rfl⟩

/-- A batch file whose transcription succeeds with the given transcript
and whose correction raises. -/
def sampleGood (b t : String) : FileEnv :=
  { base := b, tr := Except.ok { transcript := t }, co := Except.error () }

/-- A batch file whose transcription raises. -/
def sampleBad (b : String) : FileEnv :=
  { base := b, tr := Except.error (), co := Except.error () }

lemma batchLoop_none (doC : Bool) :
    ∀ (files : List FileEnv) (i : Nat),
      batchLoop doC Option.none i files
        = (files.map (processFile doC),
           files.flatMap (fun f => fileArtifacts f (processFile doC f)), true) := by
  intro files
  induction files with
  | nil => intro i; simp [batchLoop, activeAt]
  | cons f rest ih =>
    intro i
    rw [batchLoop]
    simp [activeAt, ih (i + 1)]

lemma batchLoop_getElem (doC : Bool) (k : Nat) :
    ∀ (files : List FileEnv) (i j : Nat) (hj : j < files.length),
      ((batchLoop doC (Option.some k) i files).1)[j]?
        = Option.some (if i + j < k then processFile doC (files.get ⟨j, hj⟩)
                       else FileOutcome.skipped) := by
  intro files
  induction files with
  | nil => intro i j hj; exact absurd hj (by simp)
  | cons f rest ih =>
    intro i j hj
    by_cases hik : i < k
    · rw [batchLoop]
      rw [if_pos (by simp [activeAt, hik])]
      cases j with
      | zero => simp [hik]
      | succ n =>
        have hn : n < rest.length := by simpa using hj
        simp only [List.getElem?_cons_succ]
        rw [ih (i + 1) n hn]
        have harith : i + 1 + n = i + (n + 1) := by omega
        simp [harith]
    · rw [batchLoop]
      rw [if_neg (by simp [activeAt, hik])]
      have hik2 : ¬(i + j < k) := by omega
      simp only [List.getElem?_map, List.getElem?_eq_getElem hj, Option.map_some, hik2, if_false]
      rfl

lemma batchLoop_flag (doC : Bool) (c : Option Nat) :
    ∀ (files : List FileEnv) (i : Nat),
      (batchLoop doC c i files).2.2 = activeAt c (i + files.length) := by
  intro files
  induction files with
  | nil => intro i; simp [batchLoop]
  | cons f rest ih =>
    intro i
    rw [batchLoop]
    by_cases hact : activeAt c i = true
    · rw [if_pos hact, ih (i + 1)]
      congr 1
      simp only [List.length_cons]
      omega
    · rw [if_neg hact]
      rcases c with _ | k
      · simp [activeAt] at hact
      · have hik : ¬(i < k) := by simpa [activeAt] using hact
        simp only [activeAt, List.length_cons]
        rw [eq_comm, decide_eq_false_iff_not]
        omega

/-- C1: a per-file error in a batch run is recorded as that file's
outcome and counted, the batch is not aborted, and every other file is
processed exactly as it would be on its own; the processed/errors
counters count the succeeding/failing files. -/
theorem batch_error_isolation (doC : Bool) (trM coM : String) (files : List FileEnv)
    (i : Nat) (hi : i < files.length)
    (herr : (files.get ⟨i, hi⟩).tr = Except.error ()) :
    (batch_processing_thread doC Option.none trM coM files).outcomes
      = files.map (processFile doC) ∧
    (batch_processing_thread doC Option.none trM coM files).outcomes[i]?
      = Option.some FileOutcome.transcribeErrored ∧
    (batch_processing_thread doC Option.none trM coM files).processed
      = files.countP (fun f => outcomeProcessed (processFile doC f)) ∧
    (batch_processing_thread doC Option.none trM coM files).errors
      = files.countP (fun f => outcomeErrored (processFile doC f)) ∧
    1 ≤ (batch_processing_thread doC Option.none trM coM files).errors := by
  have herr2 : (files[i]).tr = Except.error () := herr
  have houtcomes : (batch_processing_thread doC Option.none trM coM files).outcomes
      = files.map (processFile doC) := by
    simp [batch_processing_thread, batchLoop_none]
  have herrs : (batch_processing_thread doC Option.none trM coM files).errors
      = files.countP (fun f => outcomeErrored (processFile doC f)) := by
    show (batchLoop doC Option.none 0 files).1.countP outcomeErrored = _
    rw [batchLoop_none, List.countP_map]
    rfl
  refine ⟨houtcomes, ?_, ?_, herrs, ?_⟩
  · rw [houtcomes, List.getElem?_map, List.getElem?_eq_getElem hi]
    simp [processFile, herr2]
  · show (batchLoop doC Option.none 0 files).1.countP outcomeProcessed = _
    rw [batchLoop_none, List.countP_map]
    rfl
  · rw [herrs]
    refine List.countP_pos_iff.mpr ⟨files.get ⟨i, hi⟩, List.get_mem files i hi, ?_⟩
    simp [processFile, herr2, outcomeErrored]

theorem batch_error_isolation_witness :
    (([sampleGood "a" "ha", sampleBad "b", sampleGood "c" "hc"] : List FileEnv).get
        ⟨1, by decide⟩).tr = Except.error () ∧
    (batch_processing_thread false Option.none "nova-2" "gpt-4o"
        [sampleGood "a" "ha", sampleBad "b", sampleGood "c" "hc"]).outcomes[1]?
      = Option.some FileOutcome.transcribeErrored ∧
    (batch_processing_thread false Option.none "nova-2" "gpt-4o"
        [sampleGood "a" "ha", sampleBad "b", sampleGood "c" "hc"]).processed = 2 ∧
    (batch_processing_thread false Option.none "nova-2" "gpt-4o"
        [sampleGood "a" "ha", sampleBad "b", sampleGood "c" "hc"]).errors = 1 ∧
    (batch_processing_thread false Option.none "nova-2" "gpt-4o"
        [sampleGood "a" "ha", sampleBad "b", sampleGood "c" "hc"]).artifacts.any
      (fun a => a.base == "a" && a.kind == ArtifactKind.rawJson) = true ∧
    (batch_processing_thread false Option.none "nova-2" "gpt-4o"
        [sampleGood "a" "ha", sampleBad "b", sampleGood "c" "hc"]).artifacts.any
      (fun a => a.base == "c" && a.kind == ArtifactKind.rawJson) = true :=
  ⟨rfl,
   (batch_error_isolation false "nova-2" "gpt-4o"
     [sampleGood "a" "ha", sampleBad "b", sampleGood "c" "hc"] 1 (by decide) rfl).2.1,
   rfl, rfl, rfl, rfl⟩

/-- C8: cancellation is observed only at the check before each file: for
a run whose cancellation signal is first observed at check k, every file
before index k runs to completion with its outcome recorded exactly as
the loop body computes it, and every file from index k on is never
started. -/
theorem cancellation_file_boundary (doC : Bool) (trM coM : String)
    (files : List FileEnv) (k : Nat) :
    (∀ i, i < k → ∀ hi : i < files.length,
      (batch_processing_thread doC (Option.some k) trM coM files).outcomes[i]?
        = Option.some (processFile doC (files.get ⟨i, hi⟩))) ∧
    (∀ j, k ≤ j → j < files.length →
      (batch_processing_thread doC (Option.some k) trM coM files).outcomes[j]?
        = Option.some FileOutcome.skipped) := by
  constructor
  · intro i hik hi
    show ((batchLoop doC (Option.some k) 0 files).1)[i]? = _
    rw [batchLoop_getElem doC k files 0 i hi]
    simp [hik]
  · intro j hkj hj
    show ((batchLoop doC (Option.some k) 0 files).1)[j]? = _
    rw [batchLoop_getElem doC k files 0 j hj]
    rw [if_neg (by omega)]

theorem cancellation_file_boundary_witness :
    (batch_processing_thread false (Option.some 1) "nova-2" "gpt-4o"
        [{ base := "a", tr := Except.ok { transcript := "ha" }, co := Except.error () },
         { base := "b", tr := Except.ok { transcript := "hb" }, co := Except.error () }]).outcomes[0]?
      = Option.some (processFile false
          { base := "a", tr := Except.ok { transcript := "ha" }, co := Except.error () }) ∧
    (batch_processing_thread false (Option.some 1) "nova-2" "gpt-4o"
        [{ base := "a", tr := Except.ok { transcript := "ha" }, co := Except.error () },
         { base := "b", tr := Except.ok { transcript := "hb" }, co := Except.error () }]).outcomes[1]?
      = Option.some FileOutcome.skipped :=
  ⟨(cancellation_file_boundary false "nova-2" "gpt-4o" _ 1).1 0 (by decide) (by decide),
   (cancellation_file_boundary false "nova-2" "gpt-4o" _ 1).2 1 (by decide) (by decide)⟩

/-- C3 counterexample: a two-file batch whose cancellation signal is
observed before file 2 ends as a cancelled, partially-completed run
(file 2 skipped, one file processed), yet no batch summary is produced:
neither the summary field nor any summary artifact exists. -/
theorem batch_cancel_no_summary :
    (batch_processing_thread false (Option.some 1) "nova-2" "gpt-4o"
        [{ base := "a", tr := Except.ok { transcript := "ha" }, co := Except.error () },
         { base := "b", tr := Except.ok { transcript := "hb" }, co := Except.error () }]).outcomes[1]?
      = Option.some FileOutcome.skipped ∧
    (batch_processing_thread false (Option.some 1) "nova-2" "gpt-4o"
        [{ base := "a", tr := Except.ok { transcript := "ha" }, co := Except.error () },
         { base := "b", tr := Except.ok { transcript := "hb" }, co := Except.error () }]).processed = 1 ∧
    (batch_processing_thread false (Option.some 1) "nova-2" "gpt-4o"
        [{ base := "a", tr := Except.ok { transcript := "ha" }, co := Except.error () },
         { base := "b", tr := Except.ok { transcript := "hb" }, co := Except.error () }]).summary
      = Option.none ∧
    (batch_processing_thread false (Option.some 1) "nova-2" "gpt-4o"
        [{ base := "a", tr := Except.ok { transcript := "ha" }, co := Except.error () },
         { base := "b", tr := Except.ok { transcript := "hb" }, co := Except.error () }]).artifacts.all
      (fun a => a.kind != ArtifactKind.summary) = true :=
  ⟨rfl, rfl, rfl, rfl⟩

/-- C3 as amended: the batch summary (processed/total counts, error
count, model names; the date is wall-clock and not modelled) is written
exactly when the cancellation flag is still set at the post-loop check —
on a completed run it is written before the thread's state is dropped,
but a cancelled run writes no summary at all. -/
theorem batch_summary_policy (doC : Bool) (cancelAt : Option Nat) (trM coM : String)
    (files : List FileEnv) :
    (batch_processing_thread doC cancelAt trM coM files).summary
      = (if activeAt cancelAt files.length then
          Option.some (ArtifactContent.summaryText
            ((batch_processing_thread doC cancelAt trM coM files).processed)
            files.length
            ((batch_processing_thread doC cancelAt trM coM files).errors)
            trM (if doC then Option.some coM else Option.none))
        else Option.none) := by
  simp only [batch_processing_thread]
  rw [batchLoop_flag doC cancelAt files 0]
  simp

/-- The artifact is the raw structured result of the file named `b`. -/
def isRawJsonFor (b : String) (a : Artifact) : Bool :=
  a.base == b && a.kind == ArtifactKind.rawJson

/-- The artifact is the corrected structured result of the file named `b`. -/
def isCorrJsonFor (b : String) (a : Artifact) : Bool :=
  a.base == b && a.kind == ArtifactKind.corrJson

/-- The artifact is a raw structured result for `b` whose transcript is
non-empty. -/
def isNonEmptyRawFor (b : String) (a : Artifact) : Bool :=
  a.base == b &&
    (match a.content with
     | ArtifactContent.rawJson r => decide (r.transcript ≠ "")
     | _ => false)

lemma file_invariant (doC : Bool) (f : FileEnv) (b : String) :
    ((fileArtifacts f (processFile doC f)).countP (isRawJsonFor b) ≤ 1) ∧
    ((fileArtifacts f (processFile doC f)).countP (isCorrJsonFor b) ≤ 1) ∧
    ((fileArtifacts f (processFile doC f)).any (isCorrJsonFor b) = true →
      (fileArtifacts f (processFile doC f)).any (isNonEmptyRawFor b) = true) := by
  rcases htr : f.tr with e | r
  · simp [processFile, htr, fileArtifacts]
  · by_cases hts : r.transcript = ""
    · simp [processFile, htr, hts, fileArtifacts]
    · cases hfb : f.base == b
      · cases doC
        · simp [processFile, htr, hts, fileArtifacts, batchRawArtifacts,
            isRawJsonFor, isCorrJsonFor, isNonEmptyRawFor, hfb, List.countP_cons]
        · rcases hco : f.co with e | c <;>
            simp [processFile, htr, hts, hco, fileArtifacts, batchRawArtifacts,
              batchCorrArtifacts, isRawJsonFor, isCorrJsonFor, isNonEmptyRawFor, hfb,
              List.countP_cons]
      · cases doC
        · simp [processFile, htr, hts, fileArtifacts, batchRawArtifacts,
            isRawJsonFor, isCorrJsonFor, isNonEmptyRawFor, hfb, hts, List.countP_cons]
        · rcases hco : f.co with e | c <;>
            simp [processFile, htr, hts, hco, fileArtifacts, batchRawArtifacts,
              batchCorrArtifacts, isRawJsonFor, isCorrJsonFor, isNonEmptyRawFor, hfb,
              List.countP_cons]
/-- A batch file whose transcription and correction both succeed. -/
def sampleCorr (b t : String) : FileEnv :=
  { base := b, tr := Except.ok { transcript := t },
    co := Except.ok { original_transcript := t, model_used := "gpt-4o",
                      corrected_transcript := Json.str "fixed", topics := Option.none,
                      error := Option.none } }

/-- The unique path the batch loop writes a raw structured result for
base `b` to (main.py line 1119). -/
def rawJsonPath (b : String) : String := "raw_transcripts/" ++ b ++ "_raw.json"

/-- The unique path the batch loop writes a corrected structured result
for base `b` to (main.py line 1141). -/
def corrJsonPath (b : String) : String := "corrected_transcripts/" ++ b ++ "_corrected.json"

/-- The content a path holds after a sequence of writes: `open(path, "w")`
truncates, so the last write to a path wins; `Option.none` = the path was
never written. -/
def lastContentAt (arts : List Artifact) (p : String) : Option ArtifactContent :=
  ((arts.filter (fun a => a.path == p)).getLast?).map Artifact.content

lemma string_data_eq {s t : String} (h : s.data = t.data) : s = t := by
  cases s
  cases t
  simp only at h
  rw [h]

lemma lastChar_path_ne (s t : String) (c1 c2 : Char)
    (hs : s.data ≠ []) (ht : t.data ≠ [])
    (hsc : s.data.getLast? = Option.some c1) (htc : t.data.getLast? = Option.some c2)
    (hne : c1 ≠ c2) (x y : String) : x ++ s ≠ y ++ t := by
  intro h
  have hd := congrArg (fun z : String => z.data.getLast?) h
  simp only [String.data_append] at hd
  rw [List.getLast?_append_of_ne_nil _ hs, List.getLast?_append_of_ne_nil _ ht,
    hsc, htc] at hd
  exact hne (Option.some.inj hd)

lemma rawPrefix_ne_corrPrefix (x s y t : String) :
    "raw_transcripts/" ++ x ++ s ≠ "corrected_transcripts/" ++ y ++ t := by
  intro h
  have hd := congrArg String.data h
  have hr : ("raw_transcripts/" : String).data = 'r' :: "aw_transcripts/".data := by decide
  have hc : ("corrected_transcripts/" : String).data
      = 'c' :: "orrected_transcripts/".data := by decide
  simp only [String.data_append, hr, hc, List.cons_append] at hd
  injection hd with h1 _
  exact absurd h1 (by decide)

lemma rawJsonPath_inj {x y : String} (h : rawJsonPath x = rawJsonPath y) : x = y := by
  have hd := congrArg String.data h
  simp only [rawJsonPath, String.data_append, List.append_assoc] at hd
  exact string_data_eq (List.append_cancel_right (List.append_cancel_left hd))

/-- Every artifact a batch loop body can emit: one of the four per-file
artifact records, for its file's base name; a raw structured result is
only ever written with a non-empty transcript (the guard of main.py
lines 1111-1114 precedes the writes). -/
def ArtifactShape (b0 : String) (a : Artifact) : Prop :=
  (∃ r, r.transcript ≠ "" ∧
      a = { path := rawJsonPath b0, base := b0, kind := ArtifactKind.rawJson,
            content := ArtifactContent.rawJson r }) ∨
  (∃ s, a = { path := "raw_transcripts/" ++ b0 ++ ".txt", base := b0,
              kind := ArtifactKind.rawText, content := ArtifactContent.rawText s }) ∨
  (∃ c, a = { path := corrJsonPath b0, base := b0, kind := ArtifactKind.corrJson,
              content := ArtifactContent.corrJson c }) ∨
  (∃ j, a = { path := "corrected_transcripts/" ++ b0 ++ ".txt", base := b0,
              kind := ArtifactKind.corrText, content := ArtifactContent.corrText j })

lemma fileArtifacts_shape (doC : Bool) (f : FileEnv) (a : Artifact)
    (ha : a ∈ fileArtifacts f (processFile doC f)) : ArtifactShape f.base a := by
  rcases htr : f.tr with e | r
  · simp [processFile, htr, fileArtifacts] at ha
  · by_cases hts : r.transcript = ""
    · simp [processFile, htr, hts, fileArtifacts] at ha
    · cases doC with
      | false =>
        simp [processFile, htr, hts, fileArtifacts, batchRawArtifacts] at ha
        rcases ha with rfl | rfl
        · exact Or.inl ⟨r, hts, rfl⟩
        · exact Or.inr (Or.inl ⟨r.transcript, rfl⟩)
      | true =>
        rcases hco : f.co with e | c
        · simp [processFile, htr, hts, hco, fileArtifacts, batchRawArtifacts] at ha
          rcases ha with rfl | rfl
          · exact Or.inl ⟨r, hts, rfl⟩
          · exact Or.inr (Or.inl ⟨r.transcript, rfl⟩)
        · simp [processFile, htr, hts, hco, fileArtifacts, batchRawArtifacts,
            batchCorrArtifacts] at ha
          rcases ha with rfl | rfl | rfl | rfl
          · exact Or.inl ⟨r, hts, rfl⟩
          · exact Or.inr (Or.inl ⟨r.transcript, rfl⟩)
          · exact Or.inr (Or.inr (Or.inl ⟨c, rfl⟩))
          · exact Or.inr (Or.inr (Or.inr ⟨c.corrected_transcript, rfl⟩))

lemma batchLoop_shape (doC : Bool) (c : Option Nat) :
    ∀ (files : List FileEnv) (i : Nat) (a : Artifact),
      a ∈ (batchLoop doC c i files).2.1 → ∃ b0, ArtifactShape b0 a := by
  intro files
  induction files with
  | nil => intro i a ha; simp [batchLoop] at ha
  | cons f rest ih =>
    intro i a ha
    rw [batchLoop] at ha
    by_cases hact : activeAt c i = true
    · rw [if_pos hact] at ha
      rcases List.mem_append.mp ha with hf | hr
      · exact ⟨f.base, fileArtifacts_shape doC f a hf⟩
      · exact ih (i + 1) a hr
    · rw [if_neg hact] at ha
      simp at ha

lemma batch_arts_split (doC : Bool) (cancelAt : Option Nat) (trM coM : String)
    (files : List FileEnv) :
    ∃ tail, (batch_processing_thread doC cancelAt trM coM files).artifacts
        = (batchLoop doC cancelAt 0 files).2.1 ++ tail ∧
      ∀ a ∈ tail, a.kind = ArtifactKind.summary ∧ a.path = "batch_summary.txt" := by
  cases hflag : (batchLoop doC cancelAt 0 files).2.2
  · refine ⟨[], ?_, by simp⟩
    simp [batch_processing_thread, hflag]
  · refine ⟨[{ path := "batch_summary.txt", base := "", kind := ArtifactKind.summary,
               content := ArtifactContent.summaryText
                 ((batchLoop doC cancelAt 0 files).1.countP outcomeProcessed) files.length
                 ((batchLoop doC cancelAt 0 files).1.countP outcomeErrored) trM
                 (if doC then Option.some coM else Option.none) }], ?_, ?_⟩
    · simp [batch_processing_thread, hflag]
    · intro a ha
      simp only [List.mem_singleton] at ha
      subst ha
      exact ⟨rfl, rfl⟩

lemma batch_arts_shape (doC : Bool) (cancelAt : Option Nat) (trM coM : String)
    (files : List FileEnv) :
    ∀ a ∈ (batch_processing_thread doC cancelAt trM coM files).artifacts,
      (∃ b0, ArtifactShape b0 a) ∨
      (a.kind = ArtifactKind.summary ∧ a.path = "batch_summary.txt") := by
  intro a ha
  obtain ⟨tail, heq, htail⟩ := batch_arts_split doC cancelAt trM coM files
  rw [heq] at ha
  rcases List.mem_append.mp ha with h | h
  · exact Or.inl (batchLoop_shape doC cancelAt files 0 a h)
  · exact Or.inr (htail a h)

lemma batch_rawJson_path (doC : Bool) (cancelAt : Option Nat) (trM coM : String)
    (files : List FileEnv) (b : String) :
    ∀ a ∈ (batch_processing_thread doC cancelAt trM coM files).artifacts,
      isRawJsonFor b a = true → a.path = rawJsonPath b := by
  intro a ha hisa
  rcases batch_arts_shape doC cancelAt trM coM files a ha with ⟨b0, hsh⟩ | ⟨hkind, _⟩
  · rcases hsh with ⟨r, hr, rfl⟩ | ⟨s, rfl⟩ | ⟨c0, rfl⟩ | ⟨j, rfl⟩
    · have hb : b0 = b := by simpa [isRawJsonFor] using hisa
      subst hb
      rfl
    · simp [isRawJsonFor] at hisa
    · simp [isRawJsonFor] at hisa
    · simp [isRawJsonFor] at hisa
  · simp [isRawJsonFor, hkind] at hisa

lemma batch_corrJson_path (doC : Bool) (cancelAt : Option Nat) (trM coM : String)
    (files : List FileEnv) (b : String) :
    ∀ a ∈ (batch_processing_thread doC cancelAt trM coM files).artifacts,
      isCorrJsonFor b a = true → a.path = corrJsonPath b := by
  intro a ha hisa
  rcases batch_arts_shape doC cancelAt trM coM files a ha with ⟨b0, hsh⟩ | ⟨hkind, _⟩
  · rcases hsh with ⟨r, hr, rfl⟩ | ⟨s, rfl⟩ | ⟨c0, rfl⟩ | ⟨j, rfl⟩
    · simp [isCorrJsonFor] at hisa
    · simp [isCorrJsonFor] at hisa
    · have hb : b0 = b := by simpa [isCorrJsonFor] using hisa
      subst hb
      rfl
    · simp [isCorrJsonFor] at hisa
  · simp [isCorrJsonFor, hkind] at hisa

lemma content_at_rawJsonPath (doC : Bool) (cancelAt : Option Nat) (trM coM : String)
    (files : List FileEnv) (b : String) :
    ∀ a ∈ (batch_processing_thread doC cancelAt trM coM files).artifacts,
      a.path = rawJsonPath b →
      ∃ r, a.content = ArtifactContent.rawJson r ∧ r.transcript ≠ "" := by
  intro a ha hpath
  rcases batch_arts_shape doC cancelAt trM coM files a ha with ⟨b0, hsh⟩ | ⟨_, hsum⟩
  · rcases hsh with ⟨r, hr, rfl⟩ | ⟨s, rfl⟩ | ⟨c0, rfl⟩ | ⟨j, rfl⟩
    · exact ⟨r, rfl, hr⟩
    · exact absurd hpath
        (lastChar_path_ne ".txt" "_raw.json" 't' 'n' (by decide) (by decide) (by decide)
          (by decide) (by decide) _ _)
    · exact absurd hpath.symm (rawPrefix_ne_corrPrefix b "_raw.json" b0 "_corrected.json")
    · exact absurd hpath.symm (rawPrefix_ne_corrPrefix b "_raw.json" b0 ".txt")
  · rw [hsum] at hpath
    rw [show ("batch_summary.txt" : String) = "batch_summary" ++ ".txt" from by decide] at hpath
    exact absurd hpath
      (lastChar_path_ne ".txt" "_raw.json" 't' 'n' (by decide) (by decide) (by decide)
        (by decide) (by decide) _ _)

lemma content_at_corrJsonPath (doC : Bool) (cancelAt : Option Nat) (trM coM : String)
    (files : List FileEnv) (b : String) :
    ∀ a ∈ (batch_processing_thread doC cancelAt trM coM files).artifacts,
      a.path = corrJsonPath b → ∃ c0, a.content = ArtifactContent.corrJson c0 := by
  intro a ha hpath
  rcases batch_arts_shape doC cancelAt trM coM files a ha with ⟨b0, hsh⟩ | ⟨_, hsum⟩
  · rcases hsh with ⟨r, hr, rfl⟩ | ⟨s, rfl⟩ | ⟨c0, rfl⟩ | ⟨j, rfl⟩
    · exact absurd hpath (rawPrefix_ne_corrPrefix b0 "_raw.json" b "_corrected.json")
    · exact absurd hpath (rawPrefix_ne_corrPrefix b0 ".txt" b "_corrected.json")
    · exact ⟨c0, rfl⟩
    · exact absurd hpath
        (lastChar_path_ne ".txt" "_corrected.json" 't' 'n' (by decide) (by decide) (by decide)
          (by decide) (by decide) _ _)
  · rw [hsum] at hpath
    rw [show ("batch_summary.txt" : String) = "batch_summary" ++ ".txt" from by decide] at hpath
    exact absurd hpath
      (lastChar_path_ne ".txt" "_corrected.json" 't' 'n' (by decide) (by decide) (by decide)
        (by decide) (by decide) _ _)

lemma batchLoop_corr_raw (doC : Bool) (c : Option Nat) (b : String) :
    ∀ (files : List FileEnv) (i : Nat),
      (batchLoop doC c i files).2.1.any (isCorrJsonFor b) = true →
      (batchLoop doC c i files).2.1.any (isNonEmptyRawFor b) = true := by
  intro files
  induction files with
  | nil => intro i h; simp [batchLoop] at h
  | cons f rest ih =>
    intro i h
    rw [batchLoop] at h ⊢
    by_cases hact : activeAt c i = true
    · rw [if_pos hact] at h ⊢
      rw [List.any_append] at h ⊢
      rw [Bool.or_eq_true] at h ⊢
      rcases h with h | h
      · exact Or.inl ((file_invariant doC f b).2.2 h)
      · exact Or.inr (ih (i + 1) h)
    · rw [if_neg hact] at h
      simp at h

/-- C9: over any batch run (no distinctness assumption on the queue),
every raw structured result for the file base `b` is written to the one
path `raw_transcripts/{b}_raw.json` and every corrected structured
result to the one path `corrected_transcripts/{b}_corrected.json`; since
each `open(path, "w")` truncates, `lastContentAt` (last write wins) is
the on-disk state, so at most one raw and at most one corrected result
file exist for each base at any point. Moreover, if any corrected
result was produced for `b`, the corrected path holds a corrected
result and the raw path holds a raw structured result whose transcript
is non-empty: every write of the raw path passes the non-empty-
transcript guard. Quantifying over all queues also covers every
intermediate point of a given run, since the loop writes file by file. -/
theorem batch_result_invariant (doC : Bool) (cancelAt : Option Nat) (trM coM : String)
    (files : List FileEnv) (b : String) :
    (∀ a ∈ (batch_processing_thread doC cancelAt trM coM files).artifacts,
        isRawJsonFor b a = true → a.path = rawJsonPath b) ∧
    (∀ a ∈ (batch_processing_thread doC cancelAt trM coM files).artifacts,
        isCorrJsonFor b a = true → a.path = corrJsonPath b) ∧
    ((batch_processing_thread doC cancelAt trM coM files).artifacts.any
        (isCorrJsonFor b) = true →
      (∃ c0, lastContentAt (batch_processing_thread doC cancelAt trM coM files).artifacts
          (corrJsonPath b) = Option.some (ArtifactContent.corrJson c0)) ∧
      (∃ r, lastContentAt (batch_processing_thread doC cancelAt trM coM files).artifacts
          (rawJsonPath b) = Option.some (ArtifactContent.rawJson r) ∧ r.transcript ≠ "")) := by
  refine ⟨batch_rawJson_path doC cancelAt trM coM files b,
    batch_corrJson_path doC cancelAt trM coM files b, ?_⟩
  intro hany
  obtain ⟨a, ha, hisa⟩ := List.any_eq_true.mp hany
  constructor
  · have hpa := batch_corrJson_path doC cancelAt trM coM files b a ha hisa
    have hmem : a ∈ (batch_processing_thread doC cancelAt trM coM files).artifacts.filter
        (fun x => x.path == corrJsonPath b) :=
      List.mem_filter.mpr ⟨ha, by simp [hpa]⟩
    have hne := List.ne_nil_of_mem hmem
    have hlast := List.getLast?_eq_getLast_of_ne_nil hne
    obtain ⟨h2arts, h2path⟩ := List.mem_filter.mp (List.getLast_mem hne)
    obtain ⟨c0, hc0⟩ := content_at_corrJsonPath doC cancelAt trM coM files b _ h2arts
      (by simpa using h2path)
    refine ⟨c0, ?_⟩
    unfold lastContentAt
    rw [hlast, Option.map_some', hc0]
  · obtain ⟨tail, heq, htail⟩ := batch_arts_split doC cancelAt trM coM files
    have hloopmem : a ∈ (batchLoop doC cancelAt 0 files).2.1 := by
      rw [heq] at ha
      rcases List.mem_append.mp ha with h | h
      · exact h
      · exact absurd hisa (by simp [isCorrJsonFor, (htail a h).1])
    have hrawany := batchLoop_corr_raw doC cancelAt b files 0
      (List.any_eq_true.mpr ⟨a, hloopmem, hisa⟩)
    obtain ⟨a3, ha3loop, ha3⟩ := List.any_eq_true.mp hrawany
    obtain ⟨b0, hsh⟩ := batchLoop_shape doC cancelAt files 0 a3 ha3loop
    rcases hsh with ⟨r, hr, heq3⟩ | ⟨s, heq3⟩ | ⟨c1, heq3⟩ | ⟨j, heq3⟩
    · obtain ⟨hb, hrne⟩ : b0 = b ∧ ¬r.transcript = "" := by
        simpa [isNonEmptyRawFor, heq3] using ha3
      subst hb
      have ha3arts : a3 ∈ (batch_processing_thread doC cancelAt trM coM files).artifacts := by
        rw [heq]
        exact List.mem_append_left _ ha3loop
      have hpath3 : a3.path = rawJsonPath b0 := by rw [heq3]
      have hmem3 : a3 ∈ (batch_processing_thread doC cancelAt trM coM files).artifacts.filter
          (fun x => x.path == rawJsonPath b0) :=
        List.mem_filter.mpr ⟨ha3arts, by simp [hpath3]⟩
      have hne3 := List.ne_nil_of_mem hmem3
      have hlast3 := List.getLast?_eq_getLast_of_ne_nil hne3
      obtain ⟨h4arts, h4path⟩ := List.mem_filter.mp (List.getLast_mem hne3)
      obtain ⟨r2, hc2, hner2⟩ := content_at_rawJsonPath doC cancelAt trM coM files b0 _ h4arts
        (by simpa using h4path)
      refine ⟨r2, ?_, hner2⟩
      unfold lastContentAt
      rw [hlast3, Option.map_some', hc2]
    · rw [heq3] at ha3
      simp [isNonEmptyRawFor] at ha3
    · rw [heq3] at ha3
      simp [isNonEmptyRawFor] at ha3
    · rw [heq3] at ha3
      simp [isNonEmptyRawFor] at ha3

theorem batch_result_invariant_witness :
    ((batch_processing_thread true Option.none "nova-2" "gpt-4o"
        [sampleCorr "a" "ha"]).artifacts.any (isCorrJsonFor "a") = true) ∧
    ((∃ c0, lastContentAt (batch_processing_thread true Option.none "nova-2" "gpt-4o"
          [sampleCorr "a" "ha"]).artifacts (corrJsonPath "a")
        = Option.some (ArtifactContent.corrJson c0)) ∧
     (∃ r, lastContentAt (batch_processing_thread true Option.none "nova-2" "gpt-4o"
          [sampleCorr "a" "ha"]).artifacts (rawJsonPath "a")
        = Option.some (ArtifactContent.rawJson r) ∧ r.transcript ≠ "")) :=
  ⟨by decide,
   (batch_result_invariant true Option.none "nova-2" "gpt-4o"
     [sampleCorr "a" "ha"] "a").2.2 (by decide)⟩
